import Mathlib

/-!
Verification development for the MultiversX timestamp service.

This file gives a shallow embedding, in Lean 4, of the parts of the
JavaScript code base that the specification's claims are about:

* the hashing utility (`src/utils/hash.js`): SHA-256 over a canonical
  serialization of the input, where object inputs are serialized with
  `JSON.stringify(data, Object.keys(data).sort())`;
* the Redis-backed cache service (`src/services/cache.service.js`):
  a key/value store with per-key TTL, namespaced keys
  `timestamp:<hash>`, `verification:<hash>`, `prepared:<hash>`;
* the transaction controller (`src/controllers/transaction.controller.js`):
  `prepareTransaction`, `registerSignedTransaction`, `getTransactionStatus`;
* the blockchain service (`src/services/blockchain.service.js`):
  `getTransaction`, `getTransactionStatus`, `waitForTransactionCompletion`;
* the verify controller (`verifyBatch`) and the webhook URL validation
  (service method and validation middleware).

External collaborators (the MultiversX network provider, the system
clock, the webhook transport, URL parsing) are modelled as explicit
parameters: a network lookup is a value of type
`Except String (Option NetworkTx)` (failure / no record / record), the
clock is an explicit `Nat` timestamp in milliseconds, and a parsed URL
is an `Option ParsedUrl`.  Asynchronous controller code is embedded as
pure state-passing functions on the cache.
-/

/-- JSON-like values, the data model for request bodies and cached blobs.
Numbers are restricted to integers (the only numeric values the claims
exercise); object fields are an insertion-ordered association list, as
in JavaScript. -/
inductive Json where
  | null : Json
  | bool (b : Bool) : Json
  | num (n : Int) : Json
  | str (s : String) : Json
  | arr (elems : List Json) : Json
  | obj (fields : List (String × Json)) : Json

/-- First-match association-list lookup, the embedding of a JavaScript
property access `o[k]` on a plain object. -/
def jfind (k : String) : List (String × Json) → Option Json
  | [] => none
  | (k', v) :: rest => if k' = k then some v else jfind k rest

/-- JavaScript falsiness of a JSON value (`!data`):
`null`, `false`, `0` and `""` are falsy; objects and arrays are truthy. -/
def jsFalsy : Json → Bool
  | Json.null => true
  | Json.bool b => !b
  | Json.num n => n = 0
  | Json.str s => s = ""
  | Json.arr _ => false
  | Json.obj _ => false

/-- The fields of an object value; non-objects have none (used to embed
spreads and `Object.keys` on values statically known to be objects). -/
def objEntries : Json → List (String × Json)
  | Json.obj kvs => kvs
  | _ => []

/-- One hex digit, lowercase (used by the hex digest encoder). -/
def hexDigit (n : Nat) : Char :=
  "0123456789abcdef".toList.getD (n % 16) '0'

/-- JSON string quoting, following `QuoteJSONString`: the double quote
and backslash are escaped, control characters use the two-character
shortcuts or a `\u00XX` escape, everything else is copied. -/
def jquoteChar (c : Char) : List Char :=
  if c = '"' then ['\\', '"']
  else if c = '\\' then ['\\', '\\']
  else if c = (Char.ofNat 8) then ['\\', 'b']
  else if c = (Char.ofNat 9) then ['\\', 't']
  else if c = (Char.ofNat 10) then ['\\', 'n']
  else if c = (Char.ofNat 12) then ['\\', 'f']
  else if c = (Char.ofNat 13) then ['\\', 'r']
  else if c.toNat < 32 then
    ['\\', 'u', '0', '0', hexDigit (c.toNat / 16), hexDigit c.toNat]
  else [c]

/-- JSON string quoting for a whole string. -/
def jquote (s : String) : String :=
  "\"" ++ String.mk (s.data.foldr (fun c acc => jquoteChar c ++ acc) []) ++ "\""

/-- Fuel-indexed core of `JSON.stringify(value, replacer)`.

`filt = some K` embeds a replacer array `K` (ECMA-262
`SerializeJSONObject` with a `PropertyList`): at every nesting depth an
object serializes exactly the properties whose key occurs in `K`, in
the order of `K`; array elements are never filtered.  `filt = none`
embeds plain `JSON.stringify(value)`: object properties in insertion
order.  The fuel only bounds the recursion depth; `jserialize` below
instantiates it with a sufficient bound, so the fuel-0 default is never
reached. -/
def jserializeF : Nat → Option (List String) → Json → String
  | 0, _, _ => ""
  | _ + 1, _, Json.null => "null"
  | _ + 1, _, Json.bool b => if b then "true" else "false"
  | _ + 1, _, Json.num n => toString n
  | _ + 1, _, Json.str s => jquote s
  | fuel + 1, filt, Json.arr xs =>
      "[" ++ String.intercalate "," (xs.map (jserializeF fuel filt)) ++ "]"
  | fuel + 1, filt, Json.obj kvs =>
      let keys := match filt with
        | some K => K
        | none => kvs.map Prod.fst
      "\x7b" ++
        String.intercalate ","
          (keys.filterMap (fun k =>
            (jfind k kvs).map (fun v =>
              jquote k ++ ":" ++ jserializeF fuel filt v))) ++
      "\x7d"

mutual

/-- Structural size of a JSON value, used to bound the serializer fuel. -/
def jsize : Json → Nat
  | Json.null => 1
  | Json.bool _ => 1
  | Json.num _ => 1
  | Json.str _ => 1
  | Json.arr xs => 1 + jsizeList xs
  | Json.obj kvs => 1 + jsizeKVs kvs

/-- Total size of a list of JSON values. -/
def jsizeList : List Json → Nat
  | [] => 0
  | x :: xs => jsize x + jsizeList xs

/-- Total size of the values of an association list. -/
def jsizeKVs : List (String × Json) → Nat
  | [] => 0
  | kv :: rest => jsize kv.2 + jsizeKVs rest

end

/-- `JSON.stringify(value, replacer)` with a replacer key array.  The
size of the value bounds the recursion depth, so the fuel default of
`jserializeF` is never reached. -/
def jserialize (K : List String) (j : Json) : String :=
  jserializeF (jsize j) (some K) j

/-- `JSON.stringify(value)` without a replacer. -/
def jserializeAll (j : Json) : String :=
  jserializeF (jsize j) none j

/-- Lexicographic comparison of character lists by code point, the
order used by `Array.prototype.sort()` on strings (for the code points
the service handles it coincides with UTF-16 code-unit order). -/
def lexLe : List Char → List Char → Bool
  | [], _ => true
  | _ :: _, [] => false
  | a :: as, b :: bs =>
      if a.toNat < b.toNat then true
      else if a.toNat = b.toNat then lexLe as bs
      else false

/-- String comparison used by the key sort in the hashing utility. -/
def strLe (a b : String) : Prop :=
  lexLe a.data b.data = true

instance : DecidableRel strLe :=
  fun a b => inferInstanceAs (Decidable (lexLe a.data b.data = true))

theorem lexLe_total : ∀ as bs, lexLe as bs = true ∨ lexLe bs as = true := by
  intro as
  induction as with
  | nil => intro bs; left; rfl
  | cons a as ih =>
      intro bs
      cases bs with
      | nil => right; rfl
      | cons b bs =>
          by_cases hlt : a.toNat < b.toNat
          · left; simp [lexLe, hlt]
          · by_cases heq : a.toNat = b.toNat
            · rcases ih bs with h | h
              · left; simp [lexLe, hlt, heq, h]
              · right
                have hlt' : ¬ b.toNat < a.toNat := by omega
                simp [lexLe, hlt', heq.symm, h]
            · right
              have : b.toNat < a.toNat := by omega
              simp [lexLe, this]

theorem lexLe_trans :
    ∀ as bs cs, lexLe as bs = true → lexLe bs cs = true → lexLe as cs = true := by
  intro as
  induction as with
  | nil => intro bs cs _ _; rfl
  | cons a as ih =>
      intro bs cs hab hbc
      cases bs with
      | nil => simp [lexLe] at hab
      | cons b bs =>
          cases cs with
          | nil => simp [lexLe] at hbc
          | cons c cs =>
              simp only [lexLe] at hab hbc ⊢
              split at hab
              · split at hbc
                · have : a.toNat < c.toNat := by omega
                  simp [this]
                · split at hbc
                  · have : a.toNat < c.toNat := by omega
                    simp [this]
                  · exact absurd hbc (by simp)
              · split at hab
                · split at hbc
                  · have : a.toNat < c.toNat := by omega
                    simp [this]
                  · split at hbc
                    · have h1 : a.toNat = c.toNat := by omega
                      have h2 : ¬ a.toNat < c.toNat := by omega
                      simp [h1, h2]
                      exact ih bs cs hab hbc
                    · exact absurd hbc (by simp)
                · exact absurd hab (by simp)

theorem char_toNat_inj {a b : Char} (h : a.toNat = b.toNat) : a = b := by
  simpa [Char.toNat, UInt32.toNat, Char.ext_iff, UInt32.ext_iff, Fin.ext_iff] using h

theorem lexLe_antisymm :
    ∀ as bs, lexLe as bs = true → lexLe bs as = true → as = bs := by
  intro as
  induction as with
  | nil =>
      intro bs _ hba
      cases bs with
      | nil => rfl
      | cons b bs => simp [lexLe] at hba
  | cons a as ih =>
      intro bs hab hba
      cases bs with
      | nil => simp [lexLe] at hab
      | cons b bs =>
          simp only [lexLe] at hab hba
          split at hab
          · split at hba
            · omega
            · split at hba
              · omega
              · exact absurd hba (by simp)
          · split at hab
            · have heq : a = b := char_toNat_inj (by omega)
              split at hba
              · omega
              · split at hba
                · exact heq ▸ congrArg (a :: ·) (ih bs hab hba)
                · exact absurd hba (by simp)
            · exact absurd hab (by simp)

instance : IsTotal String strLe :=
  ⟨fun a b => lexLe_total a.data b.data⟩

instance : IsTrans String strLe :=
  ⟨fun a b c => lexLe_trans a.data b.data c.data⟩

instance : IsAntisymm String strLe :=
  ⟨fun a b hab hba => by
    cases a; cases b
    exact congrArg String.mk (lexLe_antisymm _ _ hab hba)⟩

/-- `Array.prototype.sort()` on strings: lexicographic order on the
string values (insertion sort, as in Mathlib). -/
def sortStrings (l : List String) : List String :=
  l.insertionSort strLe

/-- UTF-8 encoding of one character (code point), as `update(s, 'utf8')`
performs on each character of the input string. -/
def utf8EncodeChar (c : Char) : List Nat :=
  let n := c.toNat
  if n < 0x80 then [n]
  else if n < 0x800 then
    [0xC0 + n / 64, 0x80 + n % 64]
  else if n < 0x10000 then
    [0xE0 + n / 4096, 0x80 + n / 64 % 64, 0x80 + n % 64]
  else
    [0xF0 + n / 262144, 0x80 + n / 4096 % 64, 0x80 + n / 64 % 64, 0x80 + n % 64]

/-- UTF-8 bytes of a string. -/
def utf8Bytes (s : String) : List Nat :=
  (s.data.map utf8EncodeChar).flatten

/-- 32-bit truncation. -/
def w32 (n : Nat) : Nat := n % 4294967296

/-- 32-bit right rotation. -/
def rotr32 (k n : Nat) : Nat :=
  w32 (n / 2 ^ k + n % 2 ^ k * 2 ^ (32 - k))

/-- 32-bit bitwise complement. -/
def not32 (n : Nat) : Nat := 4294967295 - w32 n

/-- SHA-256 round constants. -/
def sha256K : List Nat :=
  [1116352408, 1899447441, 3049323471, 3921009573, 961987163,
   1508970993, 2453635748, 2870763221, 3624381080, 310598401,
   607225278, 1426881987, 1925078388, 2162078206, 2614888103,
   3248222580, 3835390401, 4022224774, 264347078, 604807628,
   770255983, 1249150122, 1555081692, 1996064986, 2554220882,
   2821834349, 2952996808, 3210313671, 3336571891, 3584528711,
   113926993, 338241895, 666307205, 773529912, 1294757372,
   1396182291, 1695183700, 1986661051, 2177026350, 2456956037,
   2730485921, 2820302411, 3259730800, 3345764771, 3516065817,
   3600352804, 4094571909, 275423344, 430227734, 506948616,
   659060556, 883997877, 958139571, 1322822218, 1537002063,
   1747873779, 1955562222, 2024104815, 2227730452, 2361852424,
   2428436474, 2756734187, 3204031479, 3329325298]

/-- Working state of the SHA-256 compression function. -/
structure Sha256State where
  a : Nat
  b : Nat
  c : Nat
  d : Nat
  e : Nat
  f : Nat
  g : Nat
  h : Nat

/-- SHA-256 initial hash value. -/
def sha256Init : Sha256State :=
  ⟨1779033703, 3144134277, 1013904242,
   2773480762, 1359893119, 2600822924,
   528734635, 1541459225⟩

/-- SHA-256 message padding: append `0x80`, zero bytes, and the 64-bit
big-endian bit length so that the total length is a multiple of 64. -/
def sha256Pad (msg : List Nat) : List Nat :=
  let len := msg.length
  let zeros := (119 - len % 64) % 64
  let bitLen := len * 8
  msg ++ [0x80] ++ List.replicate zeros 0 ++
    ((List.range 8).map (fun i => bitLen / 2 ^ (8 * (7 - i)) % 256))

/-- Fuel-indexed split of a byte list into chunks of 64; the fuel is
instantiated with the list length, which bounds the number of chunks. -/
def chunks64F : Nat → List Nat → List (List Nat)
  | _, [] => []
  | 0, _ => []
  | fuel + 1, l => l.take 64 :: chunks64F fuel (l.drop 64)

/-- Split a byte list into chunks of 64. -/
def chunks64 (l : List Nat) : List (List Nat) :=
  chunks64F l.length l

/-- Combine four bytes into a big-endian 32-bit word. -/
def word32Of (b0 b1 b2 b3 : Nat) : Nat :=
  b0 * 16777216 + b1 * 65536 + b2 * 256 + b3

/-- The sixteen initial schedule words of a 64-byte block. -/
def blockWords (block : List Nat) : List Nat :=
  (List.range 16).map (fun i =>
    word32Of (block.getD (4 * i) 0) (block.getD (4 * i + 1) 0)
      (block.getD (4 * i + 2) 0) (block.getD (4 * i + 3) 0))

/-- Message-schedule extension step, in reverse accumulation order:
the head of the accumulator is the most recent word. -/
def scheduleStep (rev : List Nat) : List Nat :=
  let s0 :=
    Nat.xor (rotr32 7 (rev.getD 14 0))
      (Nat.xor (rotr32 18 (rev.getD 14 0)) (rev.getD 14 0 / 2 ^ 3))
  let s1 :=
    Nat.xor (rotr32 17 (rev.getD 1 0))
      (Nat.xor (rotr32 19 (rev.getD 1 0)) (rev.getD 1 0 / 2 ^ 10))
  w32 (rev.getD 15 0 + s0 + rev.getD 6 0 + s1) :: rev

/-- Full 64-word message schedule of a block. -/
def sha256Schedule (block : List Nat) : List Nat :=
  (Nat.rec (motive := fun _ => List Nat) (blockWords block).reverse
    (fun _ acc => scheduleStep acc) 48).reverse

/-- One round of the SHA-256 compression function. -/
def sha256Round (st : Sha256State) (kw : Nat) : Sha256State :=
  let s1 := Nat.xor (rotr32 6 st.e) (Nat.xor (rotr32 11 st.e) (rotr32 25 st.e))
  let ch := Nat.xor (Nat.land st.e st.f) (Nat.land (not32 st.e) st.g)
  let t1 := w32 (st.h + s1 + ch + kw)
  let s0 := Nat.xor (rotr32 2 st.a) (Nat.xor (rotr32 13 st.a) (rotr32 22 st.a))
  let mj := Nat.xor (Nat.land st.a st.b)
    (Nat.xor (Nat.land st.a st.c) (Nat.land st.b st.c))
  let t2 := w32 (s0 + mj)
  ⟨w32 (t1 + t2), st.a, st.b, st.c, w32 (st.d + t1), st.e, st.f, st.g⟩

/-- Compression of one 64-byte block into the running hash state. -/
def sha256Compress (st : Sha256State) (block : List Nat) : Sha256State :=
  let ws := sha256Schedule block
  let t := (sha256K.zip ws).foldl (fun s p => sha256Round s (w32 (p.1 + p.2))) st
  ⟨w32 (st.a + t.a), w32 (st.b + t.b), w32 (st.c + t.c), w32 (st.d + t.d),
   w32 (st.e + t.e), w32 (st.f + t.f), w32 (st.g + t.g), w32 (st.h + t.h)⟩

/-- Eight lowercase hex characters of a 32-bit word. -/
def hexWord32 (n : Nat) : List Char :=
  (List.range 8).map (fun i => hexDigit (n / 2 ^ (4 * (7 - i))))

/-- SHA-256 digest of a byte list, as a lowercase hex string. -/
def sha256Hex (msg : List Nat) : String :=
  let st := (chunks64 (sha256Pad msg)).foldl sha256Compress sha256Init
  String.mk
    (hexWord32 st.a ++ hexWord32 st.b ++ hexWord32 st.c ++ hexWord32 st.d ++
     hexWord32 st.e ++ hexWord32 st.f ++ hexWord32 st.g ++ hexWord32 st.h)

/-- `HashUtils.sha256(data)`: object-typed inputs (objects, arrays) are
serialized with `JSON.stringify(data, Object.keys(data).sort())`,
everything else with `String(data)`; the result is the SHA-256 digest in
lowercase hex.  `null` has JavaScript type `'object'` but
`Object.keys(null)` throws, so the embedding returns `none` there; every
caller guards the input with a falsiness check first. -/
def HashUtils.sha256 (data : Json) : Option String :=
  match data with
  | Json.obj kvs =>
      some (sha256Hex (utf8Bytes (jserialize (sortStrings (kvs.map Prod.fst)) data)))
  | Json.arr xs =>
      some (sha256Hex (utf8Bytes
        (jserialize (sortStrings ((List.range xs.length).map toString)) data)))
  | Json.null => none
  | Json.str s => some (sha256Hex (utf8Bytes s))
  | Json.num n => some (sha256Hex (utf8Bytes (toString n)))
  | Json.bool b => some (sha256Hex (utf8Bytes (if b then "true" else "false")))

/-- `HashUtils.isValidSHA256(hash)`: the test `/^[a-f0-9]\x7b64\x7d$/i`,
64 hex characters, case-insensitive. -/
def HashUtils.isValidSHA256 (h : String) : Bool :=
  h.data.length = 64 && h.data.all (fun c =>
    (48 ≤ c.toNat && c.toNat ≤ 57) ||
    (97 ≤ c.toNat && c.toNat ≤ 102) ||
    (65 ≤ c.toNat && c.toNat ≤ 70))

/-- The base64 alphabet. -/
def base64Table : List Char :=
  "ABCDEFGHIJKLMNOPQRSTUVWXYZabcdefghijklmnopqrstuvwxyz0123456789+/".toList

/-- One base64 output character. -/
def base64Digit (n : Nat) : Char :=
  base64Table.getD (n % 64) 'A'

/-- Fuel-indexed base64 encoding of a byte list, three bytes at a time. -/
def base64F : Nat → List Nat → List Char
  | _, [] => []
  | 0, _ => []
  | fuel + 1, b0 :: rest =>
      match rest with
      | [] =>
          [base64Digit (b0 / 4), base64Digit (b0 % 4 * 16), '=', '=']
      | [b1] =>
          [base64Digit (b0 / 4), base64Digit (b0 % 4 * 16 + b1 / 16),
           base64Digit (b1 % 16 * 4), '=']
      | b1 :: b2 :: rest' =>
          base64Digit (b0 / 4) :: base64Digit (b0 % 4 * 16 + b1 / 16) ::
            base64Digit (b1 % 16 * 4 + b2 / 64) :: base64Digit (b2 % 64) ::
            base64F fuel rest'

/-- `Buffer.from(s).toString('base64')`. -/
def base64Of (s : String) : String :=
  String.mk (base64F (utf8Bytes s).length (utf8Bytes s))

/-- The embedding of JavaScript `String.prototype.startsWith`. -/
def strStarts (s pre : String) : Bool :=
  pre.data.isPrefixOf s.data

/-- The embedding of `String.prototype.includes`. -/
def strContains (s pat : String) : Bool :=
  (List.range (s.data.length + 1)).any (fun i =>
    (s.data.drop i).take pat.data.length == pat.data)

/-- Abstract rendering of `new Date(ms).toISOString()`; the claims never
inspect the text of a date, only its presence, so the clock value itself
serves as the rendered string. -/
def isoOfMs (ms : Nat) : String :=
  toString ms

/-- The unsigned transaction built by `prepareTransaction`. -/
structure UnsignedTx where
  nonce : Nat
  value : String
  receiver : String
  sender : String
  gasPrice : Nat
  gasLimit : Nat
  data : String
  chainID : String
  version : Nat

/-- The staging record stored under `prepared:<dataHash>`. -/
structure PreparedTx where
  transaction : UnsignedTx
  dataHash : String
  userAddress : String
  metadata : Json
  preparedAt : String

/-- The record cached under `timestamp:<dataHash>` by
`registerSignedTransaction`: the confirmed variant carries the block
reference, block timestamp and explorer link, the pending variant a
submission time instead. -/
structure TimestampRecord where
  transactionHash : String
  dataHash : String
  userAddress : String
  status : String
  blockNumber : Option Nat
  blockTimestamp : Option String
  explorerUrl : Option String
  submittedAt : Option String
  metadata : Json

/-- The record cached under `verification:<txHash>` by
`BlockchainService.getTransaction` and by the status controller. -/
structure VerificationRecord where
  transactionHash : String
  status : String
  blockNumber : Option Nat
  blockTimestamp : Option String
  explorerUrl : Option String
  gasUsed : Option Nat
  gasPrice : Option Nat
  fee : Option String
  timestampData : Option Json

/-- A cached JSON blob: the three shapes the service ever stores. -/
inductive CVal where
  | prepared (p : PreparedTx)
  | timestamp (t : TimestampRecord)
  | verification (v : VerificationRecord)

/-- Reading the fields of a prepared transaction off a cached blob.  On
a blob of a different shape every property access yields `undefined`;
the empty string stands for `undefined` here, which compares unequal to
every nonempty string exactly as `undefined` does in the code. -/
def CVal.asPrepared : CVal → PreparedTx
  | CVal.prepared p => p
  | _ => ⟨⟨0, "", "", "", 0, 0, "", "", 0⟩, "", "", Json.null, ""⟩

/-- Reading `.status` off a cached blob (all three stored shapes carry a
status field; a prepared blob does not, giving `undefined`, embedded as
the empty string). -/
def CVal.statusOf : CVal → String
  | CVal.prepared _ => ""
  | CVal.timestamp t => t.status
  | CVal.verification v => v.status

/-- The Redis-backed cache: a connection flag and an association list of
key, value and absolute expiry time (milliseconds).  `setEx` gives every
write an expiry; an expired entry is invisible to `get`, exactly as in
Redis. -/
structure Cache where
  connected : Bool
  entries : List (String × CVal × Nat)

/-- `CacheService.set(key, value, ttl)`: skipped when disconnected;
`expiration = ttl || config.redis.ttl` (a missing or zero TTL falls back
to the configured default, in seconds). -/
def CacheService.set (redisTtl : Nat) (c : Cache) (now : Nat) (key : String)
    (value : CVal) (ttl : Option Nat) : Cache :=
  if c.connected then
    let expiration := match ttl with
      | some t => if t = 0 then redisTtl else t
      | none => redisTtl
    { c with entries :=
        (key, value, now + 1000 * expiration) ::
          c.entries.filter (fun e => e.1 ≠ key) }
  else c

/-- `CacheService.get(key)`: `null` when disconnected, on a missing key,
or on an expired key. -/
def CacheService.get (c : Cache) (now : Nat) (key : String) : Option CVal :=
  if c.connected then
    match c.entries.find? (fun e => e.1 = key) with
    | some e => if now < e.2.2 then some e.2.1 else none
    | none => none
  else none

/-- `CacheService.delete(key)`: skipped when disconnected. -/
def CacheService.del (c : Cache) (key : String) : Cache :=
  if c.connected then
    { c with entries := c.entries.filter (fun e => e.1 ≠ key) }
  else c

/-- `cacheTimestamp(dataHash, tx)`: key `timestamp:<dataHash>`, default TTL. -/
def CacheService.cacheTimestamp (redisTtl : Nat) (c : Cache) (now : Nat)
    (dataHash : String) (record : TimestampRecord) : Cache :=
  CacheService.set redisTtl c now ("timestamp:" ++ dataHash)
    (CVal.timestamp record) (some redisTtl)

/-- `getCachedTimestamp(dataHash)`. -/
def CacheService.getCachedTimestamp (c : Cache) (now : Nat) (dataHash : String) :
    Option CVal :=
  CacheService.get c now ("timestamp:" ++ dataHash)

/-- `cacheVerification(transactionHash, v)`: key `verification:<txHash>`. -/
def CacheService.cacheVerification (redisTtl : Nat) (c : Cache) (now : Nat)
    (transactionHash : String) (v : VerificationRecord) : Cache :=
  CacheService.set redisTtl c now ("verification:" ++ transactionHash)
    (CVal.verification v) (some redisTtl)

/-- `getCachedVerification(transactionHash)`. -/
def CacheService.getCachedVerification (c : Cache) (now : Nat)
    (transactionHash : String) : Option CVal :=
  CacheService.get c now ("verification:" ++ transactionHash)

/-- `storePreparedTransaction(dataHash, preparedTx, ttl = 300)`. -/
def CacheService.storePreparedTransaction (redisTtl : Nat) (c : Cache) (now : Nat)
    (dataHash : String) (preparedTx : PreparedTx) (ttl : Nat) : Cache :=
  CacheService.set redisTtl c now ("prepared:" ++ dataHash)
    (CVal.prepared preparedTx) (some ttl)

/-- `getPreparedTransaction(dataHash)`. -/
def CacheService.getPreparedTransaction (c : Cache) (now : Nat)
    (dataHash : String) : Option CVal :=
  CacheService.get c now ("prepared:" ++ dataHash)

/-- `deletePreparedTransaction(dataHash)`. -/
def CacheService.deletePreparedTransaction (c : Cache) (dataHash : String) : Cache :=
  CacheService.del c ("prepared:" ++ dataHash)

/-- A transaction as returned by the network provider's
`getTransaction`; the `data` field models the decoded JSON payload
(the base64 decode and `JSON.parse` of the on-chain data are performed
by external libraries and are embedded as an already-decoded value). -/
structure NetworkTx where
  status : String
  blockNonce : Nat
  blockHash : String
  timestamp : Nat
  gasUsed : Nat
  gasPrice : Nat
  fee : String
  data : Option Json

/-- The configuration the controllers read from `multiversXConfig`. -/
structure MvxConfig where
  network : String
  chainID : String
  gasLimit : Nat
  gasPrice : Nat

/-- `multiversXConfig.getExplorerUrl(transactionHash)`. -/
def MultiversXConfig.getExplorerUrl (cfg : MvxConfig) (transactionHash : String) :
    String :=
  let baseUrl :=
    if cfg.network = "devnet" then "https://devnet-explorer.multiversx.com"
    else if cfg.network = "testnet" then "https://testnet-explorer.multiversx.com"
    else "https://explorer.multiversx.com"
  if transactionHash ≠ "" then baseUrl ++ "/transactions/" ++ transactionHash
  else baseUrl

/-- Spread-merge of two objects, `\x7b ...base, ...extra \x7d`: the keys
of `base` keep their place, values overridden by `extra` where present;
remaining keys of `extra` follow. -/
def spreadMerge (base extra : List (String × Json)) : List (String × Json) :=
  base.map (fun kv => (kv.1, (jfind kv.1 extra).getD kv.2)) ++
    extra.filter (fun kv => (jfind kv.1 base).isNone)

/-- The body of `POST /api/v1/prepare-transaction`. -/
structure PrepareReq where
  userAddress : Option String
  data : Option Json
  metadata : Json

/-- Response of `prepareTransaction`: the 409 conflict carries the data
hash and the existing cached timestamp blob as error details; the
estimated-cost block of the success response is floating-point
arithmetic on the gas parameters and is not modelled. -/
inductive PrepareResp where
  | error (httpStatus : Nat) (message : String) (details : Option (String × CVal))
  | success (dataHash : String) (transaction : UnsignedTx)

/-- `TransactionController.prepareTransaction`, embedded as a pure
function of the request, the clock, the account-nonce lookup outcome and
the cache state.  Validation order, the conflict check against
`timestamp:<hash>`, the construction of the unsigned transaction and the
300-second staging write follow the source line by line. -/
def TransactionController.prepareTransaction (cfg : MvxConfig) (redisTtl now : Nat)
    (req : PrepareReq) (accountNonce : Except String Nat) (cache : Cache) :
    PrepareResp × Cache :=
  let uaOk := match req.userAddress with
    | some ua => ua ≠ ""
    | none => false
  let dataOk := match req.data with
    | some d => ¬ jsFalsy d
    | none => false
  if !(uaOk && dataOk) then
    (PrepareResp.error 400 "userAddress and data are required" none, cache)
  else
    match req.userAddress, req.data with
    | some ua, some d =>
        if !(strStarts ua "erd1" && ua.data.length == 62) then
          (PrepareResp.error 400 "Invalid MultiversX address format" none, cache)
        else
          match HashUtils.sha256 d with
          | none =>
              (PrepareResp.error 500 "Failed to prepare transaction" none, cache)
          | some dataHash =>
              match CacheService.getCachedTimestamp cache now dataHash with
              | some cached =>
                  (PrepareResp.error 409 "Data already timestamped"
                    (some (dataHash, cached)), cache)
              | none =>
                  match accountNonce with
                  | Except.error _ =>
                      (PrepareResp.error 500 "Failed to prepare transaction" none,
                        cache)
                  | Except.ok nonce =>
                      let timestampMeta := Json.obj (spreadMerge
                        [("service", Json.str "multiversx-timestamp"),
                         ("version", Json.str "1.0.0")] (objEntries req.metadata))
                      let timestampData := Json.obj
                        [("dataHash", Json.str dataHash),
                         ("timestamp", Json.str (isoOfMs now)),
                         ("metadata", timestampMeta)]
                      let unsignedTransaction : UnsignedTx :=
                        { nonce := nonce, value := "0", receiver := ua,
                          sender := ua, gasPrice := cfg.gasPrice,
                          gasLimit := cfg.gasLimit,
                          data := base64Of (jserializeAll timestampData),
                          chainID := cfg.chainID, version := 1 }
                      let preparedTx : PreparedTx :=
                        { transaction := unsignedTransaction,
                          dataHash := dataHash, userAddress := ua,
                          metadata := timestampMeta, preparedAt := isoOfMs now }
                      (PrepareResp.success dataHash unsignedTransaction,
                        CacheService.storePreparedTransaction redisTtl cache now
                          dataHash preparedTx 300)
    | _, _ =>
        (PrepareResp.error 400 "userAddress and data are required" none, cache)

/-- The body of `POST /api/v1/register-transaction` (the `metadata` and
`signature` fields of the body are destructured but never used by the
handler and are omitted). -/
structure RegisterReq where
  transactionHash : Option String
  dataHash : Option String
  userAddress : Option String

/-- Response of `registerSignedTransaction`. -/
inductive RegisterResp where
  | error (httpStatus : Nat) (message : String)
  | success (status : String) (transactionHash dataHash : String)

/-- `TransactionController.registerSignedTransaction`.  The handler
sleeps two seconds before the network lookup, so all subsequent cache
writes happen at `now + 2000`.  The lookup outcome `net` distinguishes a
thrown error, a null result and a found transaction. -/
def TransactionController.registerSignedTransaction (cfg : MvxConfig)
    (redisTtl now : Nat) (req : RegisterReq)
    (net : Except String (Option NetworkTx)) (cache : Cache) :
    RegisterResp × Cache :=
  match req.transactionHash, req.dataHash, req.userAddress with
  | some txh, some dh, some ua =>
      if txh = "" ∨ dh = "" ∨ ua = "" then
        (RegisterResp.error 400
          "transactionHash, dataHash, and userAddress are required", cache)
      else
        match CacheService.getPreparedTransaction cache now dh with
        | none =>
            (RegisterResp.error 404 "Prepared transaction not found or expired",
              cache)
        | some blob =>
            let preparedTx := blob.asPrepared
            if preparedTx.userAddress ≠ ua then
              (RegisterResp.error 403 "Transaction user mismatch", cache)
            else
              let now2 := now + 2000
              match net with
              | Except.ok (some tx) =>
                  let result : TimestampRecord :=
                    { transactionHash := txh, dataHash := dh, userAddress := ua,
                      status := tx.status, blockNumber := some tx.blockNonce,
                      blockTimestamp := some (isoOfMs (tx.timestamp * 1000)),
                      explorerUrl :=
                        some (MultiversXConfig.getExplorerUrl cfg txh),
                      submittedAt := none, metadata := preparedTx.metadata }
                  let c1 := CacheService.cacheTimestamp redisTtl cache now2 dh
                    result
                  let c2 := CacheService.deletePreparedTransaction c1 dh
                  (RegisterResp.success "confirmed" txh dh, c2)
              | Except.ok none =>
                  let result : TimestampRecord :=
                    { transactionHash := txh, dataHash := dh, userAddress := ua,
                      status := "pending", blockNumber := none,
                      blockTimestamp := none, explorerUrl := none,
                      submittedAt := some (isoOfMs now2),
                      metadata := preparedTx.metadata }
                  (RegisterResp.success "pending" txh dh,
                    CacheService.cacheTimestamp redisTtl cache now2 dh result)
              | Except.error _ =>
                  let result : TimestampRecord :=
                    { transactionHash := txh, dataHash := dh, userAddress := ua,
                      status := "pending", blockNumber := none,
                      blockTimestamp := none, explorerUrl := none,
                      submittedAt := some (isoOfMs now2),
                      metadata := preparedTx.metadata }
                  (RegisterResp.success "pending" txh dh,
                    CacheService.cacheTimestamp redisTtl cache now2 dh result)
  | _, _, _ =>
      (RegisterResp.error 400
        "transactionHash, dataHash, and userAddress are required", cache)

/-- Response of the HTTP status endpoint
`GET /api/v1/transaction/:txHash/status`. -/
inductive CtrlStatusResp where
  | error (httpStatus : Nat) (message : String)
  | cached (v : CVal)
  | ok (r : VerificationRecord)

/-- `TransactionController.getTransactionStatus`: cache first, then the
network; a null network result yields a 404, and a thrown network error
is caught and also mapped to a 404 response. -/
def TransactionController.getTransactionStatus (cfg : MvxConfig)
    (redisTtl now : Nat) (txHash : Option String)
    (net : Except String (Option NetworkTx)) (cache : Cache) :
    CtrlStatusResp × Cache :=
  match txHash with
  | none => (CtrlStatusResp.error 400 "Transaction hash is required", cache)
  | some h =>
      if h = "" then
        (CtrlStatusResp.error 400 "Transaction hash is required", cache)
      else
        match CacheService.getCachedVerification cache now h with
        | some cv => (CtrlStatusResp.cached cv, cache)
        | none =>
            match net with
            | Except.ok none =>
                (CtrlStatusResp.error 404 "Transaction not found", cache)
            | Except.ok (some tx) =>
                let result : VerificationRecord :=
                  { transactionHash := h, status := tx.status,
                    blockNumber := some tx.blockNonce,
                    blockTimestamp := some (isoOfMs (tx.timestamp * 1000)),
                    explorerUrl := some (MultiversXConfig.getExplorerUrl cfg h),
                    gasUsed := some tx.gasUsed, gasPrice := none,
                    fee := some tx.fee, timestampData := none }
                (CtrlStatusResp.ok result,
                  CacheService.cacheVerification redisTtl cache now h result)
            | Except.error _ =>
                (CtrlStatusResp.error 404 "Transaction not found on network",
                  cache)

/-- The status object built by `BlockchainService.getTransactionStatus`. -/
structure StatusResult where
  status : String
  transactionHash : String
  message : Option String
  blockNumber : Option Nat
  blockHash : Option String
  timestamp : Option String
  gasUsed : Option Nat
  gasPrice : Option Nat
  fee : Option String
  explorerUrl : Option String
  timestampData : Option Json

/-- `BlockchainService.getTransactionStatus`: a null network result maps
to `not_found`, a thrown network lookup is caught and maps to `pending`,
otherwise the status is the network's status string lowercased.  Only an
uninitialized service makes the function itself throw. -/
def BlockchainService.getTransactionStatus (cfg : MvxConfig) (initialized : Bool)
    (net : Except String (Option NetworkTx)) (transactionHash : String) :
    Except String StatusResult :=
  if !initialized then
    Except.error "Failed to get transaction status: Blockchain service not initialized"
  else
    match net with
    | Except.ok none =>
        Except.ok
          { status := "not_found", transactionHash := transactionHash,
            message := some "Transaction not found on blockchain",
            blockNumber := none, blockHash := none, timestamp := none,
            gasUsed := none, gasPrice := none, fee := none,
            explorerUrl := none, timestampData := none }
    | Except.ok (some tx) =>
        Except.ok
          { status := tx.status.toLower, transactionHash := transactionHash,
            message := none, blockNumber := some tx.blockNonce,
            blockHash := some tx.blockHash,
            timestamp :=
              if tx.timestamp = 0 then none
              else some (isoOfMs (tx.timestamp * 1000)),
            gasUsed := some tx.gasUsed, gasPrice := some tx.gasPrice,
            fee := some tx.fee,
            explorerUrl :=
              some (MultiversXConfig.getExplorerUrl cfg transactionHash),
            timestampData := tx.data }
    | Except.error _ =>
        Except.ok
          { status := "pending", transactionHash := transactionHash,
            message := some "Transaction is pending or not yet confirmed",
            blockNumber := none, blockHash := none, timestamp := none,
            gasUsed := none, gasPrice := none, fee := none,
            explorerUrl := none, timestampData := none }

/-- `BlockchainService.getTransaction`: cache first; a null network
result throws `Transaction not found` (wrapped by the outer catch), a
found transaction is cached under `verification:<hash>` and returned.
The cache hit returns the stored blob as-is. -/
def BlockchainService.getTransaction (cfg : MvxConfig) (redisTtl : Nat)
    (initialized : Bool) (now : Nat) (net : Except String (Option NetworkTx))
    (cache : Cache) (transactionHash : String) : Except String CVal × Cache :=
  if !initialized then
    (Except.error "Failed to get transaction: Blockchain service not initialized",
      cache)
  else
    match CacheService.getCachedVerification cache now transactionHash with
    | some cv => (Except.ok cv, cache)
    | none =>
        match net with
        | Except.ok none =>
            (Except.error "Failed to get transaction: Transaction not found",
              cache)
        | Except.ok (some tx) =>
            let result : VerificationRecord :=
              { transactionHash := transactionHash,
                blockNumber := some tx.blockNonce,
                blockTimestamp := some (isoOfMs (tx.timestamp * 1000)),
                status := tx.status, gasUsed := some tx.gasUsed,
                gasPrice := none, fee := none,
                explorerUrl :=
                  some (MultiversXConfig.getExplorerUrl cfg transactionHash),
                timestampData := tx.data }
            (Except.ok (CVal.verification result),
              CacheService.cacheVerification redisTtl cache now transactionHash
                result)
        | Except.error e =>
            (Except.error ("Failed to get transaction: " ++ e), cache)

/-- The completion result of `waitForTransactionCompletion`. -/
structure CompletionResult where
  completed : Bool
  transactionHash : String
  status : String
  message : Option String

/-- The polling loop of `waitForTransactionCompletion`: while the
elapsed time is below the timeout, look the transaction up (`nets i` is
the network outcome of the i-th poll), return on `success`, throw on
`fail`, otherwise sleep 2000 ms and poll again; when the loop exits, the
`Transaction completion timeout` error is thrown.  The second component
of the result is the elapsed time at which the function returns. -/
def BlockchainService.waitLoop (cfg : MvxConfig) (redisTtl : Nat)
    (initialized : Bool) (nets : Nat → Except String (Option NetworkTx))
    (transactionHash : String) (timeoutMs : Nat) (i elapsed : Nat)
    (cache : Cache) : Except String CompletionResult × Nat × Cache :=
  if h : elapsed < timeoutMs then
    match BlockchainService.getTransaction cfg redisTtl initialized elapsed
      (nets i) cache transactionHash with
    | (Except.error e, c') => (Except.error e, elapsed, c')
    | (Except.ok cv, c') =>
        if cv.statusOf = "success" then
          (Except.ok
            { completed := true, transactionHash := transactionHash,
              status := cv.statusOf, message := none }, elapsed, c')
        else if cv.statusOf = "fail" then
          (Except.error ("Transaction failed: " ++ cv.statusOf), elapsed, c')
        else
          BlockchainService.waitLoop cfg redisTtl initialized nets
            transactionHash timeoutMs (i + 1) (elapsed + 2000) c'
  else
    (Except.error "Transaction completion timeout", elapsed, cache)
  termination_by timeoutMs - elapsed
  decreasing_by omega

/-- `BlockchainService.waitForTransactionCompletion`: the outer catch
converts any escaped error whose message contains `timeout` into the
non-exceptional timed-out result and rethrows everything else. -/
def BlockchainService.waitForTransactionCompletion (cfg : MvxConfig)
    (redisTtl : Nat) (hasProcessor initialized : Bool)
    (nets : Nat → Except String (Option NetworkTx)) (transactionHash : String)
    (timeoutMs : Nat) (cache : Cache) :
    Except String CompletionResult × Nat × Cache :=
  let inner :=
    if !hasProcessor then
      (Except.error "Transaction processor not initialized", 0, cache)
    else
      BlockchainService.waitLoop cfg redisTtl initialized nets transactionHash
        timeoutMs 0 0 cache
  match inner with
  | (Except.error e, t, c) =>
      if strContains e "timeout" then
        (Except.ok
          { completed := false, transactionHash := transactionHash,
            status := "timeout",
            message := some "Transaction confirmation timeout" }, t, c)
      else
        (Except.error e, t, c)
  | other => other

/-- The outcome of one `blockchainService.verifyTimestamp(hash)` call,
the per-hash lookup `verifyBatch` delegates to. -/
structure VerifyOutcome where
  verified : Bool
  timestamp : Option CVal
  source : String

/-- One per-item result of the batch verification response. -/
structure BatchItem where
  hash : String
  verified : Bool
  timestamp : Option CVal
  source : Option String
  error : Option String

/-- The aggregate statistics of the batch verification response. -/
structure BatchStats where
  total : Nat
  verified : Nat
  failed : Nat
  notFound : Nat

/-- Response of `POST /api/v1/verify/batch`. -/
inductive BatchResp where
  | validationError (field : String) (message : String) (value : List String)
  | ok (results : List BatchItem) (statistics : BatchStats)

/-- One mapped element of the parallel verification: an ok lookup is
reported with a null error, a thrown lookup with `verified: false` and
the error message. -/
def VerifyController.batchItem (lookup : String → Except String VerifyOutcome)
    (h : String) : BatchItem :=
  match lookup h with
  | Except.ok r =>
      { hash := h, verified := r.verified, timestamp := r.timestamp,
        source := some r.source, error := none }
  | Except.error e =>
      { hash := h, verified := false, timestamp := none, source := none,
        error := some e }

/-- JavaScript truthiness of the per-item `error` field (`null` and the
empty string are falsy). -/
def jsTruthyOptStr (o : Option String) : Bool :=
  match o with
  | some s => s ≠ ""
  | none => false

/-- `VerifyController.verifyBatch`, embedded as a pure function of the
request body and the per-hash lookup.  The second component of the
result is the list of hashes for which a lookup was performed, in call
order: it is empty on every validation-error path and equals the input
list on the success path. -/
def VerifyController.verifyBatch (hashes : Option (List String))
    (lookup : String → Except String VerifyOutcome) : BatchResp × List String :=
  match hashes with
  | none =>
      (BatchResp.validationError "hashes"
        "Hashes array is required and must not be empty" [], [])
  | some l =>
      if l.isEmpty then
        (BatchResp.validationError "hashes"
          "Hashes array is required and must not be empty" [], [])
      else if l.length > 50 then
        (BatchResp.validationError "hashes"
          "Maximum 50 hashes allowed per batch request" [], [])
      else
        let invalidHashes := l.filter (fun h => !HashUtils.isValidSHA256 h)
        if !invalidHashes.isEmpty then
          (BatchResp.validationError "hashes" "Invalid hash format"
            invalidHashes, [])
        else
          let results := l.map (VerifyController.batchItem lookup)
          let stats : BatchStats :=
            { total := results.length,
              verified := (results.filter (fun r => r.verified)).length,
              failed :=
                (results.filter (fun r => jsTruthyOptStr r.error)).length,
              notFound :=
                (results.filter
                  (fun r => !r.verified && !jsTruthyOptStr r.error)).length }
          (BatchResp.ok results stats, l)

/-- The `protocol` and `hostname` of a successfully parsed URL;
`new URL(u)` itself is an external parser, embedded as an
`Option ParsedUrl` (with `none` for a parse failure). -/
structure ParsedUrl where
  protocol : String
  hostname : String

/-- `WebhookService.validateWebhookUrl`: in production only the protocol
is checked (HTTPS required); in development http and https are allowed;
a parse failure returns false. -/
def WebhookService.validateWebhookUrl (env : String) (url : Option ParsedUrl) :
    Bool :=
  match url with
  | none => false
  | some u =>
      if env = "production" && u.protocol != "https:" then false
      else if env = "development" &&
          !(u.protocol == "http:" || u.protocol == "https:") then false
      else true

/-- Outcome of an Express middleware: pass the request on, or answer
with an error response. -/
inductive MwResult where
  | next
  | error (httpStatus : Nat) (message : String) (code : String)

/-- The request-validation middleware `validateWebhookUrl`
(`validation.middleware.js`): absent callback URL passes through; a
parse failure is a 400; in production a non-HTTPS protocol and the
private/loopback hostnames (`localhost`, `127.0.0.1`, and the
`192.168.` / `10.` / `172.` prefixes) are rejected with a 400.  Note:
this middleware is exported but mounted on no route (the routers use
`validateHashParam`, `validateCreateTimestamp`, `validateWebhookTest`,
schema validators, etc., never this function), and it reads
`req.body.options.callbackUrl`, a location the webhook-sending
endpoints do not use — so no executed delivery path performs this
hostname check.  It is embedded here as a record of the dead code. -/
def ValidationMiddleware.validateWebhookUrl (env : String)
    (callbackUrl : Option (Option ParsedUrl)) : MwResult :=
  match callbackUrl with
  | none => MwResult.next
  | some none => MwResult.error 400 "Invalid webhook URL format" "INVALID_WEBHOOK_URL"
  | some (some u) =>
      if u.protocol != "https:" && env == "production" then
        MwResult.error 400 "Webhook URL must use HTTPS in production"
          "INVALID_WEBHOOK_URL"
      else if env == "production" &&
          (u.hostname == "localhost" || u.hostname == "127.0.0.1" ||
           strStarts u.hostname "192.168." || strStarts u.hostname "10." ||
           strStarts u.hostname "172.") then
        MwResult.error 400 "Webhook URL cannot point to private/local addresses"
          "INVALID_WEBHOOK_URL"
      else
        MwResult.next

/-- Sample configuration for concrete instantiations. -/
def sampleCfg : MvxConfig :=
  ⟨"mainnet", "1", 50000, 1000000000⟩

/-- A sample confirmed network transaction. -/
def sampleTx : NetworkTx :=
  ⟨"success", 123, "bh", 1700000000, 48000, 1000000000, "5", none⟩

/-- A sample network transaction that stays pending. -/
def samplePendingTx : NetworkTx :=
  ⟨"pending", 0, "", 0, 0, 0, "", none⟩

/-- A sample staged transaction for the register flow. -/
def samplePrepared : PreparedTx :=
  ⟨⟨7, "0", "u", "u", 1000000000, 50000, "", "1", 1⟩, "h", "u", Json.obj [], "0"⟩

/-- A cache holding exactly the staged transaction `samplePrepared`
under `prepared:h`, unexpired at time 0. -/
def sampleCacheWithPrepared : Cache :=
  ⟨true, [("prepared:h", CVal.prepared samplePrepared, 300000)]⟩

/-- A connected cache with no entries. -/
def emptyCache : Cache :=
  ⟨true, []⟩

/-- A 62-character address of the required shape. -/
def sampleAddr : String :=
  "erd1qqqqqqqqqqqqqqqqqqqqqqqqqqqqqqqqqqqqqqqqqqqqqqqqqqqqqqqqqq"

/-- The digest of the sample data `"hello"` (kept symbolic: no proof
needs its concrete characters). -/
def sampleDataHash : String :=
  sha256Hex (utf8Bytes "hello")

/-- A sample cached timestamp record for the conflict path. -/
def sampleTimestampRecord : TimestampRecord :=
  ⟨"t", sampleDataHash, "u", "success", some 1, some "ts", some "url", none,
    Json.null⟩

/-- A cache holding a timestamp record for the digest of `"hello"`,
unexpired at time 0. -/
def sampleCacheWithTimestamp : Cache :=
  ⟨true, [("timestamp:" ++ sampleDataHash, CVal.timestamp sampleTimestampRecord,
    1000)]⟩

theorem CacheService.get_connected {c : Cache} {now : Nat} {k : String} {v : CVal}
    (h : CacheService.get c now k = some v) : c.connected = true := by
  by_cases hc : c.connected
  · exact hc
  · simp [CacheService.get, hc] at h

theorem find_entry_filter_ne (l : List (String × CVal × Nat)) (k k' : String)
    (h : k' ≠ k) :
    (l.filter (fun e => e.1 ≠ k)).find? (fun e => e.1 = k') =
      l.find? (fun e => e.1 = k') := by
  induction l with
  | nil => rfl
  | cons e l ih =>
      by_cases h2 : e.1 = k
      · have h1 : ¬ (e.1 = k') := by
          rw [h2]
          exact fun hh => h hh.symm
        rw [List.filter_cons_of_neg (by simp [h2]), List.find?_cons_of_neg _ (by simp [h1]), ih]
      · by_cases h1 : e.1 = k'
        · rw [List.filter_cons_of_pos (by simp [h2]),
            List.find?_cons_of_pos _ (by simp [h1]),
            List.find?_cons_of_pos _ (by simp [h1])]
        · rw [List.filter_cons_of_pos (by simp [h2]),
            List.find?_cons_of_neg _ (by simp [h1]),
            List.find?_cons_of_neg _ (by simp [h1]), ih]

theorem CacheService.get_set (redisTtl t : Nat) (c : Cache) (now now' : Nat)
    (k k' : String) (v : CVal) (hc : c.connected = true) :
    CacheService.get (CacheService.set redisTtl c now k v (some t)) now' k' =
      if k' = k then
        (if now' < now + 1000 * (if t = 0 then redisTtl else t) then some v
         else none)
      else CacheService.get c now' k' := by
  by_cases hk : k' = k
  · subst hk
    simp only [CacheService.set, CacheService.get, hc, if_true]
    rw [List.find?_cons_of_pos _ (by simp)]
  · simp only [CacheService.set, CacheService.get, hc, if_true, if_neg hk]
    rw [List.find?_cons_of_neg _ (by simp; exact fun h => hk h.symm),
      find_entry_filter_ne _ _ _ hk]

theorem CacheService.get_del (c : Cache) (now : Nat) (k k' : String) :
    CacheService.get (CacheService.del c k) now k' =
      if k' = k then none else CacheService.get c now k' := by
  by_cases hc : c.connected
  · by_cases hk : k' = k
    · subst hk
      simp only [CacheService.del, CacheService.get, hc, if_true, if_pos rfl]
      rw [List.find?_eq_none.mpr]
      intro x hx
      have := (List.mem_filter.mp hx).2
      simp at this ⊢
      exact this
    · simp only [CacheService.del, CacheService.get, hc, if_true, if_neg hk]
      rw [find_entry_filter_ne _ _ _ hk]
  · simp [CacheService.del, CacheService.get, hc]

theorem CacheService.set_connected (redisTtl : Nat) (c : Cache) (now : Nat)
    (k : String) (v : CVal) (ttl : Option Nat) :
    (CacheService.set redisTtl c now k v ttl).connected = c.connected := by
  by_cases hc : c.connected <;> simp [CacheService.set, hc]

theorem tkey_ne_pkey (s : String) : ("timestamp:" ++ s) ≠ ("prepared:" ++ s) := by
  intro h
  have h2 := congrArg String.length h
  rw [String.length_append, String.length_append] at h2
  have hA : ("timestamp:" : String).length = 10 := rfl
  have hB : ("prepared:" : String).length = 9 := rfl
  omega

/-- C2: `register` fails with NotFound (404) when no unexpired
PreparedTransaction exists in cache for `dataHash`, and with Forbidden
(403) when the caller's `userAddress` differs from the one stored in the
PreparedTransaction; in both cases no TimestampRecord is written and the
cache state is unchanged. -/
theorem register_notfound_forbidden
    (cfg : MvxConfig) (redisTtl now : Nat) (txh dh ua : String)
    (net : Except String (Option NetworkTx)) (cache : Cache)
    (htx : txh ≠ "") (hdh : dh ≠ "") (hua : ua ≠ "") :
    (CacheService.getPreparedTransaction cache now dh = none →
      TransactionController.registerSignedTransaction cfg redisTtl now
        ⟨some txh, some dh, some ua⟩ net cache =
        (RegisterResp.error 404 "Prepared transaction not found or expired",
          cache)) ∧
    (∀ blob, CacheService.getPreparedTransaction cache now dh = some blob →
      blob.asPrepared.userAddress ≠ ua →
      TransactionController.registerSignedTransaction cfg redisTtl now
        ⟨some txh, some dh, some ua⟩ net cache =
        (RegisterResp.error 403 "Transaction user mismatch", cache)) := by
  constructor
  · intro hnone
    simp [TransactionController.registerSignedTransaction, htx, hdh, hua, hnone]
  · intro blob hsome hmis
    simp [TransactionController.registerSignedTransaction, htx, hdh, hua, hsome,
      hmis]

theorem register_notfound_forbidden_witness :
    TransactionController.registerSignedTransaction sampleCfg 86400 0
      ⟨some "t", some "h", some "u"⟩ (Except.ok none) emptyCache =
      (RegisterResp.error 404 "Prepared transaction not found or expired",
        emptyCache) :=
  (register_notfound_forbidden sampleCfg 86400 0 "t" "h" "u" (Except.ok none)
    emptyCache (by decide) (by decide) (by decide)).1 rfl

/-- C1: when the preconditions of `register` pass (an unexpired
PreparedTransaction for `dataHash` with a matching `userAddress`), a
network lookup that returns a transaction leads to a confirmed
TimestampRecord — block reference, block timestamp and explorer link —
cached under `timestamp:<dataHash>` and the PreparedTransaction at
`prepared:<dataHash>` deleted; a lookup that returns no record or throws
leads to a pending TimestampRecord with no block reference cached under
`timestamp:<dataHash>` while the PreparedTransaction is kept. -/
theorem register_reconciliation
    (cfg : MvxConfig) (redisTtl now : Nat) (txh dh ua : String)
    (net : Except String (Option NetworkTx)) (cache : Cache) (blob : CVal)
    (out : RegisterResp × Cache)
    (hr : 0 < redisTtl) (htx : txh ≠ "") (hdh : dh ≠ "") (hua : ua ≠ "")
    (hprep : CacheService.getPreparedTransaction cache now dh = some blob)
    (haddr : blob.asPrepared.userAddress = ua)
    (hout : TransactionController.registerSignedTransaction cfg redisTtl now
      ⟨some txh, some dh, some ua⟩ net cache = out) :
    (∀ tx, net = Except.ok (some tx) →
      out.1 = RegisterResp.success "confirmed" txh dh ∧
      CacheService.getCachedTimestamp out.2 (now + 2000) dh =
        some (CVal.timestamp
          { transactionHash := txh, dataHash := dh, userAddress := ua,
            status := tx.status, blockNumber := some tx.blockNonce,
            blockTimestamp := some (isoOfMs (tx.timestamp * 1000)),
            explorerUrl := some (MultiversXConfig.getExplorerUrl cfg txh),
            submittedAt := none, metadata := blob.asPrepared.metadata }) ∧
      (∀ t, CacheService.getPreparedTransaction out.2 t dh = none)) ∧
    ((net = Except.ok none ∨ ∃ e, net = Except.error e) →
      out.1 = RegisterResp.success "pending" txh dh ∧
      CacheService.getCachedTimestamp out.2 (now + 2000) dh =
        some (CVal.timestamp
          { transactionHash := txh, dataHash := dh, userAddress := ua,
            status := "pending", blockNumber := none, blockTimestamp := none,
            explorerUrl := none, submittedAt := some (isoOfMs (now + 2000)),
            metadata := blob.asPrepared.metadata }) ∧
      (∀ t, CacheService.getPreparedTransaction out.2 t dh =
        CacheService.getPreparedTransaction cache t dh)) := by
  have hc : cache.connected = true := CacheService.get_connected hprep
  subst hout
  constructor
  · intro tx hnet
    subst hnet
    simp only [TransactionController.registerSignedTransaction, hprep]
    rw [if_neg (by simp [htx, hdh, hua]), if_neg (by simp [haddr])]
    refine ⟨rfl, ?_, ?_⟩
    · simp only [CacheService.getCachedTimestamp,
        CacheService.deletePreparedTransaction, CacheService.cacheTimestamp]
      rw [CacheService.get_del, if_neg (tkey_ne_pkey dh),
        CacheService.get_set _ _ _ _ _ _ _ _ hc, if_pos rfl, ite_self,
        if_pos (by omega)]
    · intro t
      simp only [CacheService.getPreparedTransaction,
        CacheService.deletePreparedTransaction, CacheService.cacheTimestamp]
      rw [CacheService.get_del, if_pos rfl]
  · intro hcase
    have hmain : ∀ result : TimestampRecord,
        CacheService.getCachedTimestamp
          (CacheService.cacheTimestamp redisTtl cache (now + 2000) dh result)
          (now + 2000) dh = some (CVal.timestamp result) ∧
        (∀ t, CacheService.getPreparedTransaction
          (CacheService.cacheTimestamp redisTtl cache (now + 2000) dh result)
          t dh = CacheService.getPreparedTransaction cache t dh) := by
      intro result
      constructor
      · simp only [CacheService.getCachedTimestamp, CacheService.cacheTimestamp]
        rw [CacheService.get_set _ _ _ _ _ _ _ _ hc, if_pos rfl, ite_self,
          if_pos (by omega)]
      · intro t
        simp only [CacheService.getPreparedTransaction,
          CacheService.cacheTimestamp]
        rw [CacheService.get_set _ _ _ _ _ _ _ _ hc,
          if_neg fun hh => tkey_ne_pkey dh hh.symm]
    rcases hcase with hnet | ⟨e, hnet⟩ <;> subst hnet <;>
      · simp only [TransactionController.registerSignedTransaction, hprep]
        rw [if_neg (by simp [htx, hdh, hua]), if_neg (by simp [haddr])]
        exact ⟨rfl, (hmain _).1, (hmain _).2⟩

theorem register_reconciliation_witness :
    (TransactionController.registerSignedTransaction sampleCfg 86400 0
      ⟨some "t", some "h", some "u"⟩ (Except.ok (some sampleTx))
      sampleCacheWithPrepared).1 = RegisterResp.success "confirmed" "t" "h" ∧
    (∀ t, CacheService.getPreparedTransaction
      (TransactionController.registerSignedTransaction sampleCfg 86400 0
        ⟨some "t", some "h", some "u"⟩ (Except.ok (some sampleTx))
        sampleCacheWithPrepared).2 t "h" = none) := by
  have h := register_reconciliation sampleCfg 86400 0 "t" "h" "u"
    (Except.ok (some sampleTx)) sampleCacheWithPrepared
    (CVal.prepared samplePrepared) _ (by decide) (by decide) (by decide)
    (by decide) rfl rfl rfl
  exact ⟨(h.1 sampleTx rfl).1, (h.1 sampleTx rfl).2.2⟩

/-- C3: a `prepare` call that passes validation and whose data hash
already has a cached TimestampRecord fails with Conflict (409) carrying
the data hash and the existing record in the error details, and writes
no staging record: the cache is returned unchanged. -/
theorem prepare_conflict
    (cfg : MvxConfig) (redisTtl now : Nat) (ua : String) (d meta : Json)
    (nonce : Except String Nat) (cache : Cache) (dataHash : String)
    (existing : CVal)
    (hua : ua ≠ "") (hstart : strStarts ua "erd1" = true)
    (hlen : ua.data.length = 62) (hd : jsFalsy d = false)
    (hhash : HashUtils.sha256 d = some dataHash)
    (hcached : CacheService.getCachedTimestamp cache now dataHash = some existing) :
    TransactionController.prepareTransaction cfg redisTtl now
      ⟨some ua, some d, meta⟩ nonce cache =
      (PrepareResp.error 409 "Data already timestamped"
        (some (dataHash, existing)), cache) := by
  simp [TransactionController.prepareTransaction, hua, hstart, hlen, hd, hhash,
    hcached]

theorem prepare_conflict_witness :
    TransactionController.prepareTransaction sampleCfg 86400 0
      ⟨some sampleAddr, some (Json.str "hello"), Json.obj []⟩ (Except.ok 0)
      sampleCacheWithTimestamp =
      (PrepareResp.error 409 "Data already timestamped"
        (some (sampleDataHash, CVal.timestamp sampleTimestampRecord)),
        sampleCacheWithTimestamp) := by
  have hcached : CacheService.getCachedTimestamp sampleCacheWithTimestamp 0
      sampleDataHash = some (CVal.timestamp sampleTimestampRecord) := by
    unfold CacheService.getCachedTimestamp CacheService.get
      sampleCacheWithTimestamp
    rw [List.find?_cons_of_pos _ (by simp)]
    simp
  exact prepare_conflict sampleCfg 86400 0 sampleAddr (Json.str "hello")
    (Json.obj []) (Except.ok 0) sampleCacheWithTimestamp sampleDataHash
    (CVal.timestamp sampleTimestampRecord) (by decide) (by decide) (by decide)
    rfl rfl hcached

/-- C5 counterexample: the claim says a network-layer failure inside
`getStatus` is reported as an optimistic `pending`, never as an error;
but the HTTP status controller (`server.js`), on a cache miss whose
network lookup throws, answers with a 404 error response instead. -/
theorem getStatus_network_failure_counterexample :
    TransactionController.getTransactionStatus sampleCfg 86400 0 (some "ab")
      (Except.error "ECONNREFUSED") emptyCache =
      (CtrlStatusResp.error 404 "Transaction not found on network",
        emptyCache) := by
  simp [TransactionController.getTransactionStatus,
    CacheService.getCachedVerification, CacheService.get, emptyCache]

/-- C5 (amended): `BlockchainService.getTransactionStatus` distinguishes
exactly the three reportable states — `not_found` on a null network
result, `pending` when the network lookup throws (a normal return, not
an error), and the network's status string lowercased otherwise — and
never returns an error when initialized; the HTTP controller
`TransactionController.getTransactionStatus`, by contrast, maps a
thrown network lookup on a cache miss to a NotFound (404) error
response rather than a pending status. -/
theorem getTransactionStatus_amended
    (cfg : MvxConfig) (redisTtl now : Nat) (h : String)
    (net : Except String (Option NetworkTx)) (cache : Cache)
    (hh : h ≠ "")
    (hmiss : CacheService.getCachedVerification cache now h = none) :
    (net = Except.ok none →
      BlockchainService.getTransactionStatus cfg true net h =
        Except.ok
          { status := "not_found", transactionHash := h,
            message := some "Transaction not found on blockchain",
            blockNumber := none, blockHash := none, timestamp := none,
            gasUsed := none, gasPrice := none, fee := none,
            explorerUrl := none, timestampData := none }) ∧
    (∀ e, net = Except.error e →
      BlockchainService.getTransactionStatus cfg true net h =
        Except.ok
          { status := "pending", transactionHash := h,
            message := some "Transaction is pending or not yet confirmed",
            blockNumber := none, blockHash := none, timestamp := none,
            gasUsed := none, gasPrice := none, fee := none,
            explorerUrl := none, timestampData := none }) ∧
    (∀ tx, net = Except.ok (some tx) →
      ∃ r, BlockchainService.getTransactionStatus cfg true net h =
        Except.ok r ∧ r.status = tx.status.toLower) ∧
    (∃ r, BlockchainService.getTransactionStatus cfg true net h =
      Except.ok r) ∧
    (∀ e, net = Except.error e →
      TransactionController.getTransactionStatus cfg redisTtl now (some h) net
        cache =
        (CtrlStatusResp.error 404 "Transaction not found on network",
          cache)) := by
  refine ⟨?_, ?_, ?_, ?_, ?_⟩
  · intro hnet
    subst hnet
    simp [BlockchainService.getTransactionStatus]
  · intro e hnet
    subst hnet
    simp [BlockchainService.getTransactionStatus]
  · intro tx hnet
    subst hnet
    exact ⟨_, rfl, rfl⟩
  · rcases net with e | tx
    · exact ⟨_, rfl⟩
    · rcases tx with _ | tx
      · exact ⟨_, rfl⟩
      · exact ⟨_, rfl⟩
  · intro e hnet
    subst hnet
    simp [TransactionController.getTransactionStatus, hh, hmiss]

theorem getTransactionStatus_amended_witness :
    BlockchainService.getTransactionStatus sampleCfg true
      (Except.error "ECONNREFUSED") "ab" =
      Except.ok
        { status := "pending", transactionHash := "ab",
          message := some "Transaction is pending or not yet confirmed",
          blockNumber := none, blockHash := none, timestamp := none,
          gasUsed := none, gasPrice := none, fee := none,
          explorerUrl := none, timestampData := none } ∧
    TransactionController.getTransactionStatus sampleCfg 86400 0 (some "ab")
      (Except.error "ECONNREFUSED") emptyCache =
      (CtrlStatusResp.error 404 "Transaction not found on network",
        emptyCache) := by
  have h := getTransactionStatus_amended sampleCfg 86400 0 "ab"
    (Except.error "ECONNREFUSED") emptyCache (by decide) rfl
  exact ⟨h.2.1 "ECONNREFUSED" rfl, h.2.2.2.2 "ECONNREFUSED" rfl⟩

/-- C4 counterexample: for a transaction hash the network has no record
of — the plainest reading of "never resolves" — `waitForCompletion`
does not return a timed-out result at or after `timeoutMs`: the very
first poll's `getTransaction` throws `Transaction not found`, whose
message does not contain `timeout`, and the error is rethrown
immediately (elapsed time 0, far before the 10000 ms budget). -/
theorem waitForCompletion_notfound_counterexample :
    BlockchainService.waitForTransactionCompletion sampleCfg 86400 true true
      (fun _ => Except.ok none) "h" 10000 emptyCache =
      (Except.error "Failed to get transaction: Transaction not found", 0,
        emptyCache) ∧ (0 : Nat) < 10000 := by
  constructor
  · have hsc : strContains "Failed to get transaction: Transaction not found"
        "timeout" = false := by decide
    simp only [BlockchainService.waitForTransactionCompletion]
    rw [BlockchainService.waitLoop.eq_def]
    simp [BlockchainService.getTransaction, CacheService.getCachedVerification,
      CacheService.get, emptyCache, hsc]
  · decide

/-- Helper for the amended C4: when every poll finds a transaction whose
status is neither `success` nor `fail`, and the cache holds no
success/fail verification blob for the hash, the polling loop runs until
the elapsed time reaches the timeout and then throws the
`Transaction completion timeout` error at an elapsed time at or after
`timeoutMs`. -/
theorem waitLoop_pending_times_out
    (cfg : MvxConfig) (redisTtl : Nat)
    (nets : Nat → Except String (Option NetworkTx)) (txs : Nat → NetworkTx)
    (txHash : String) (timeoutMs : Nat)
    (hnets : ∀ i, nets i = Except.ok (some (txs i)))
    (hst : ∀ i, (txs i).status ≠ "success" ∧ (txs i).status ≠ "fail") :
    ∀ k i elapsed cache, timeoutMs - elapsed ≤ k →
      (∀ t cv, CacheService.getCachedVerification cache t txHash = some cv →
        cv.statusOf ≠ "success" ∧ cv.statusOf ≠ "fail") →
      ∃ e' c',
        BlockchainService.waitLoop cfg redisTtl true nets txHash timeoutMs i
          elapsed cache =
          (Except.error "Transaction completion timeout", e', c') ∧
        timeoutMs ≤ e' := by
  intro k
  induction k with
  | zero =>
      intro i elapsed cache hk _
      rw [BlockchainService.waitLoop.eq_def]
      rw [dif_neg (by omega)]
      exact ⟨elapsed, cache, rfl, by omega⟩
  | succ k ih =>
      intro i elapsed cache hk hinv
      by_cases hlt : elapsed < timeoutMs
      · rw [BlockchainService.waitLoop.eq_def, dif_pos hlt]
        cases hcv : CacheService.getCachedVerification cache elapsed txHash with
        | some cv =>
            have hs := hinv elapsed cv hcv
            simp only [BlockchainService.getTransaction, hcv]
            simp only [Bool.not_true, Bool.false_eq_true, if_false]
            rw [if_neg hs.1, if_neg hs.2]
            exact ih (i + 1) (elapsed + 2000) cache (by omega) hinv
        | none =>
            simp only [BlockchainService.getTransaction, hcv, hnets i]
            simp only [Bool.not_true, Bool.false_eq_true, if_false]
            rw [if_neg (by simp [CVal.statusOf]; exact (hst i).1),
              if_neg (by simp [CVal.statusOf]; exact (hst i).2)]
            apply ih (i + 1) (elapsed + 2000) _ (by omega)
            intro t cv' hcv'
            by_cases hc : cache.connected
            · simp only [CacheService.getCachedVerification,
                CacheService.cacheVerification] at hcv'
              rw [CacheService.get_set _ _ _ _ _ _ _ _ hc, if_pos rfl] at hcv'
              by_cases hexp :
                  t < elapsed + 1000 * (if redisTtl = 0 then redisTtl
                    else redisTtl)
              · rw [if_pos hexp] at hcv'
                cases hcv'
                exact ⟨by simp [CVal.statusOf, (hst i).1],
                  by simp [CVal.statusOf, (hst i).2]⟩
              · rw [if_neg hexp] at hcv'
                cases hcv'
            · have hid : ∀ v : VerificationRecord,
                  CacheService.cacheVerification redisTtl cache elapsed txHash v
                    = cache := fun v => by
                simp [CacheService.cacheVerification, CacheService.set, hc]
              rw [hid] at hcv'
              exact hinv t cv' hcv'
      · rw [BlockchainService.waitLoop.eq_def, dif_neg hlt]
        exact ⟨elapsed, cache, rfl, by omega⟩

/-- C4 (amended): for a transaction hash whose network lookups always
find a transaction but whose status never reaches `success` or `fail`
(and whose cached verification, if any, is likewise non-final),
`waitForCompletion` returns the non-exceptional timed-out result
(`completed: false`, status `timeout`) at an elapsed time at or after
`timeoutMs`, never before; by contrast, when the network has no record
at all, the lookup error is raised instead (see the counterexample). -/
theorem waitForCompletion_times_out_amended
    (cfg : MvxConfig) (redisTtl : Nat)
    (nets : Nat → Except String (Option NetworkTx)) (txs : Nat → NetworkTx)
    (txHash : String) (timeoutMs : Nat) (cache : Cache)
    (hnets : ∀ i, nets i = Except.ok (some (txs i)))
    (hst : ∀ i, (txs i).status ≠ "success" ∧ (txs i).status ≠ "fail")
    (hinv : ∀ t cv, CacheService.getCachedVerification cache t txHash = some cv →
      cv.statusOf ≠ "success" ∧ cv.statusOf ≠ "fail") :
    ∃ e' c',
      BlockchainService.waitForTransactionCompletion cfg redisTtl true true nets
        txHash timeoutMs cache =
        (Except.ok
          { completed := false, transactionHash := txHash, status := "timeout",
            message := some "Transaction confirmation timeout" }, e', c') ∧
      timeoutMs ≤ e' := by
  obtain ⟨e', c', hloop, hge⟩ :=
    waitLoop_pending_times_out cfg redisTtl nets txs txHash timeoutMs hnets hst
      (timeoutMs - 0) 0 0 cache (by omega) hinv
  refine ⟨e', c', ?_, hge⟩
  have hsc : strContains "Transaction completion timeout" "timeout" = true := by
    decide
  simp [BlockchainService.waitForTransactionCompletion, hloop, hsc]

theorem waitForCompletion_times_out_amended_witness :
    ∃ e' c',
      BlockchainService.waitForTransactionCompletion sampleCfg 86400 true true
        (fun _ => Except.ok (some samplePendingTx)) "h" 3000 emptyCache =
        (Except.ok
          { completed := false, transactionHash := "h", status := "timeout",
            message := some "Transaction confirmation timeout" }, e', c') ∧
      3000 ≤ e' := by
  apply waitForCompletion_times_out_amended sampleCfg 86400
    (fun _ => Except.ok (some samplePendingTx)) (fun _ => samplePendingTx) "h"
    3000 emptyCache (fun _ => rfl)
    (fun _ => (by decide :
      samplePendingTx.status ≠ "success" ∧ samplePendingTx.status ≠ "fail"))
  intro t cv hcv
  simp [CacheService.getCachedVerification, CacheService.get, emptyCache] at hcv

theorem hexDigit_mem (n : Nat) : hexDigit n ∈ "0123456789abcdef".data := by
  have h : n % 16 < 16 := Nat.mod_lt _ (by norm_num)
  unfold hexDigit
  set m := n % 16 with hm
  interval_cases m <;> decide

theorem hexWord32_mem (w : Nat) : ∀ c ∈ hexWord32 w, c ∈ "0123456789abcdef".data := by
  intro c hc
  simp only [hexWord32, List.mem_map, List.mem_range] at hc
  obtain ⟨i, -, hEq⟩ := hc
  exact hEq ▸ hexDigit_mem _

theorem sha256Hex_shape (msg : List Nat) :
    (sha256Hex msg).data.length = 64 ∧
    ∀ c ∈ (sha256Hex msg).data, c ∈ "0123456789abcdef".data := by
  have key : ∀ w1 w2 w3 w4 w5 w6 w7 w8 : Nat,
      (hexWord32 w1 ++ hexWord32 w2 ++ hexWord32 w3 ++ hexWord32 w4 ++
        hexWord32 w5 ++ hexWord32 w6 ++ hexWord32 w7 ++
        hexWord32 w8).length = 64 ∧
      ∀ c ∈ (hexWord32 w1 ++ hexWord32 w2 ++ hexWord32 w3 ++ hexWord32 w4 ++
        hexWord32 w5 ++ hexWord32 w6 ++ hexWord32 w7 ++ hexWord32 w8),
        c ∈ "0123456789abcdef".data := by
    intro w1 w2 w3 w4 w5 w6 w7 w8
    constructor
    · simp [hexWord32]
    · intro c hc
      simp only [List.mem_append, or_assoc] at hc
      rcases hc with h | h | h | h | h | h | h | h <;> exact hexWord32_mem _ c h
  exact key _ _ _ _ _ _ _ _

theorem jsizeKVs_perm {kvs₁ kvs₂ : List (String × Json)} (h : kvs₁.Perm kvs₂) :
    jsizeKVs kvs₁ = jsizeKVs kvs₂ := by
  induction h with
  | nil => rfl
  | cons x h ih => simp [jsizeKVs, ih]
  | swap x y l => simp [jsizeKVs]; omega
  | trans h1 h2 ih1 ih2 => exact ih1.trans ih2

theorem jfind_perm : ∀ {kvs₁ kvs₂ : List (String × Json)}, kvs₁.Perm kvs₂ →
    (kvs₁.map Prod.fst).Nodup → ∀ k, jfind k kvs₁ = jfind k kvs₂ := by
  intro kvs₁ kvs₂ h
  induction h with
  | nil => intro _ k; rfl
  | cons x h ih =>
      intro hnd k
      obtain ⟨kx, vx⟩ := x
      simp only [jfind]
      by_cases hx : kx = k
      · simp [hx]
      · simp only [if_neg hx]
        refine ih ?_ k
        simpa using (List.nodup_cons.mp (by simpa using hnd)).2
  | swap x y l =>
      intro hnd k
      obtain ⟨kx, vx⟩ := x
      obtain ⟨ky, vy⟩ := y
      have hxy : ky ≠ kx := by
        simp only [List.map_cons, List.nodup_cons, List.mem_cons] at hnd
        exact fun hh => hnd.1 (Or.inl hh)
      by_cases h1 : ky = k
      · have h2 : ¬ kx = k := fun hh => hxy (h1.trans hh.symm)
        simp [jfind, h1, h2]
      · by_cases h2 : kx = k
        · simp [jfind, h1, h2]
        · simp [jfind, h1, h2]
  | trans h1 h2 ih1 ih2 =>
      intro hnd k
      rw [ih1 hnd k, ih2 (((h1.map Prod.fst).nodup_iff).mp hnd) k]

theorem sortStrings_perm_eq {l₁ l₂ : List String} (h : l₁.Perm l₂) :
    sortStrings l₁ = sortStrings l₂ := by
  unfold sortStrings
  exact List.eq_of_perm_of_sorted
    ((List.perm_insertionSort strLe l₁).trans
      (h.trans (List.perm_insertionSort strLe l₂).symm))
    (List.sorted_insertionSort strLe l₁)
    (List.sorted_insertionSort strLe l₂)

theorem jserializeF_obj_congr (n : Nat) (K : List String)
    (kvs₁ kvs₂ : List (String × Json))
    (hfind : ∀ k, jfind k kvs₁ = jfind k kvs₂) :
    jserializeF n (some K) (Json.obj kvs₁) =
      jserializeF n (some K) (Json.obj kvs₂) := by
  cases n with
  | zero => rfl
  | succ m =>
      simp only [jserializeF]
      have hfun : (fun k => (jfind k kvs₁).map
          (fun v => jquote k ++ ":" ++ jserializeF m (some K) v)) =
          (fun k => (jfind k kvs₂).map
          (fun v => jquote k ++ ":" ++ jserializeF m (some K) v)) :=
        funext fun k => by rw [hfind k]
      rw [hfun]

/-- C6: `HashUtils.sha256` is deterministic, returns a fixed-width
(64-character) lowercase hex digest whenever it returns at all, and for
object inputs any two objects with identical key/value sets (a
permutation of the same fields, with distinct keys) but different key
insertion orders hash to the same digest. -/
theorem sha256_deterministic_and_order_independent
    (d : Json) (kvs₁ kvs₂ : List (String × Json))
    (hperm : kvs₁.Perm kvs₂) (hnd : (kvs₁.map Prod.fst).Nodup) :
    HashUtils.sha256 d = HashUtils.sha256 d ∧
    (∀ s, HashUtils.sha256 d = some s →
      s.data.length = 64 ∧ ∀ c ∈ s.data, c ∈ "0123456789abcdef".data) ∧
    HashUtils.sha256 (Json.obj kvs₁) = HashUtils.sha256 (Json.obj kvs₂) := by
  refine ⟨rfl, ?_, ?_⟩
  · intro s hs
    cases d with
    | null => simp [HashUtils.sha256] at hs
    | bool b =>
        simp only [HashUtils.sha256, Option.some.injEq] at hs
        exact hs ▸ sha256Hex_shape _
    | num n =>
        simp only [HashUtils.sha256, Option.some.injEq] at hs
        exact hs ▸ sha256Hex_shape _
    | str t =>
        simp only [HashUtils.sha256, Option.some.injEq] at hs
        exact hs ▸ sha256Hex_shape _
    | arr xs =>
        simp only [HashUtils.sha256, Option.some.injEq] at hs
        exact hs ▸ sha256Hex_shape _
    | obj kvs =>
        simp only [HashUtils.sha256, Option.some.injEq] at hs
        exact hs ▸ sha256Hex_shape _
  · have hkeys : sortStrings (kvs₁.map Prod.fst) =
        sortStrings (kvs₂.map Prod.fst) :=
      sortStrings_perm_eq (hperm.map Prod.fst)
    have hsize : jsize (Json.obj kvs₁) = jsize (Json.obj kvs₂) := by
      simp [jsize, jsizeKVs_perm hperm]
    simp only [HashUtils.sha256, jserialize, Option.some.injEq]
    rw [hkeys, hsize,
      jserializeF_obj_congr _ _ _ _ (jfind_perm hperm hnd)]

theorem sha256_order_independent_witness :
    HashUtils.sha256 (Json.obj [("a", Json.num 1), ("b", Json.num 2)]) =
      HashUtils.sha256 (Json.obj [("b", Json.num 2), ("a", Json.num 1)]) :=
  (sha256_deterministic_and_order_independent (Json.str "x")
    [("a", Json.num 1), ("b", Json.num 2)] [("b", Json.num 2), ("a", Json.num 1)]
    (List.Perm.swap ("b", Json.num 2) ("a", Json.num 1) [])
    (by decide)).2.2

/-- C10: the replacer-array serialization in `sha256` filters every
nesting depth by the top-level key set, so two distinct objects that
agree on their top-level keys but differ in a nested property named
outside that set (here the nested `b`) serialize identically and get the
identical digest — a collision at the public hashing interface. -/
theorem sha256_nested_filter_collision :
    Json.obj [("a", Json.obj [("b", Json.num 1)])] ≠
      Json.obj [("a", Json.obj [("b", Json.num 2)])] ∧
    (objEntries (Json.obj [("a", Json.obj [("b", Json.num 1)])])).map Prod.fst =
      (objEntries (Json.obj [("a", Json.obj [("b", Json.num 2)])])).map Prod.fst ∧
    HashUtils.sha256 (Json.obj [("a", Json.obj [("b", Json.num 1)])]) =
      HashUtils.sha256 (Json.obj [("a", Json.obj [("b", Json.num 2)])]) := by
  refine ⟨?_, rfl, ?_⟩
  · intro h
    simp at h
  · have hs : jserialize (sortStrings ["a"])
        (Json.obj [("a", Json.obj [("b", Json.num 1)])]) =
        jserialize (sortStrings ["a"])
        (Json.obj [("a", Json.obj [("b", Json.num 2)])]) := by decide
    exact congrArg (fun str => some (sha256Hex (utf8Bytes str))) hs

/-- C7: `verifyBatch` accepts only 1 to 50 hashes, and a missing array,
an empty array, an oversized array, or any hash failing the 64-hex
format check rejects the whole batch with a validation error before any
per-hash lookup happens (the performed-lookup list is empty). -/
theorem verifyBatch_failfast
    (hashes : Option (List String))
    (lookup : String → Except String VerifyOutcome)
    (hbad : hashes = none ∨ ∃ l, hashes = some l ∧
      (l = [] ∨ 50 < l.length ∨ ∃ h ∈ l, HashUtils.isValidSHA256 h = false)) :
    (∃ f m v, (VerifyController.verifyBatch hashes lookup).1 =
      BatchResp.validationError f m v) ∧
    (VerifyController.verifyBatch hashes lookup).2 = [] := by
  rcases hbad with hn | ⟨l, hl, hcase⟩
  · subst hn
    exact ⟨⟨_, _, _, rfl⟩, rfl⟩
  · subst hl
    rcases hcase with hnil | hlen | ⟨h0, hmem, hinv⟩
    · subst hnil
      exact ⟨⟨_, _, _, rfl⟩, rfl⟩
    · have hne : l.isEmpty = false := by
        cases l with
        | nil => simp at hlen
        | cons a l => rfl
      simp [VerifyController.verifyBatch, hne, hlen]
    · have hne : l.isEmpty = false := by
        cases l with
        | nil => simp at hmem
        | cons a l => rfl
      by_cases hlen : 50 < l.length
      · simp [VerifyController.verifyBatch, hne, hlen]
      · have hfil : (l.filter (fun h => !HashUtils.isValidSHA256 h)).isEmpty
            = false := by
          have hm : h0 ∈ l.filter (fun h => !HashUtils.isValidSHA256 h) :=
            List.mem_filter.mpr ⟨hmem, by simp [hinv]⟩
          cases hfe : l.filter (fun h => !HashUtils.isValidSHA256 h) with
          | nil => rw [hfe] at hm; simp at hm
          | cons a t => rfl
        simp [VerifyController.verifyBatch, hne, hlen, hfil]

theorem verifyBatch_failfast_witness :
    (∃ f m v, (VerifyController.verifyBatch (some ["zz"])
      (fun _ => Except.error "boom")).1 = BatchResp.validationError f m v) ∧
    (VerifyController.verifyBatch (some ["zz"])
      (fun _ => Except.error "boom")).2 = [] :=
  verifyBatch_failfast (some ["zz"]) (fun _ => Except.error "boom")
    (Or.inr ⟨["zz"], rfl, Or.inr (Or.inr ⟨"zz", by decide, by decide⟩)⟩)

/-- C8: for a batch of 1–50 valid-format hashes, `verifyBatch` returns
exactly one result per input hash in the caller's order (the result list
is the input list mapped through the per-item verification, whose hash
field echoes the input); a lookup failure is reported per-item with
`verified: false` and a non-null error without aborting the rest; and
the statistics satisfy `total = n`, `verified` = count of verified
items, `failed` = count of items with a non-null error, `notFound` =
count of unverified items with a null error. -/
theorem verifyBatch_per_item
    (l : List String) (lookup : String → Except String VerifyOutcome)
    (h1 : l ≠ []) (h2 : l.length ≤ 50)
    (hvalid : ∀ h ∈ l, HashUtils.isValidSHA256 h = true)
    (herr : ∀ h e, lookup h = Except.error e → e ≠ "") :
    VerifyController.verifyBatch (some l) lookup =
      (BatchResp.ok (l.map (VerifyController.batchItem lookup))
        { total := l.length,
          verified := ((l.map (VerifyController.batchItem lookup)).filter
            (fun r => r.verified)).length,
          failed := ((l.map (VerifyController.batchItem lookup)).filter
            (fun r => r.error.isSome)).length,
          notFound := ((l.map (VerifyController.batchItem lookup)).filter
            (fun r => !r.verified && r.error.isNone)).length }, l) ∧
    (l.map (VerifyController.batchItem lookup)).length = l.length ∧
    (∀ h, (VerifyController.batchItem lookup h).hash = h) ∧
    (∀ h e, lookup h = Except.error e →
      (VerifyController.batchItem lookup h).verified = false ∧
      (VerifyController.batchItem lookup h).error = some e) := by
  have hWt : ∀ r ∈ l.map (VerifyController.batchItem lookup),
      jsTruthyOptStr r.error = r.error.isSome := by
    intro r hr
    obtain ⟨h, -, rfl⟩ := List.mem_map.mp hr
    unfold VerifyController.batchItem
    cases hl : lookup h with
    | ok v => simp [jsTruthyOptStr]
    | error e => simp [jsTruthyOptStr, herr h e hl]
  have hWn : ∀ r ∈ l.map (VerifyController.batchItem lookup),
      (!r.verified && !jsTruthyOptStr r.error) =
        (!r.verified && r.error.isNone) := by
    intro r hr
    obtain ⟨h, -, rfl⟩ := List.mem_map.mp hr
    unfold VerifyController.batchItem
    cases hl : lookup h with
    | ok v => simp [jsTruthyOptStr]
    | error e => simp [jsTruthyOptStr, herr h e hl]
  refine ⟨?_, List.length_map _ _, ?_, ?_⟩
  · have hne : l.isEmpty = false := by
      cases l with
      | nil => exact absurd rfl h1
      | cons a t => rfl
    have hlen : ¬ 50 < l.length := by omega
    have hfil : (l.filter (fun h => !HashUtils.isValidSHA256 h)).isEmpty
        = true := by
      have : l.filter (fun h => !HashUtils.isValidSHA256 h) = [] := by
        rw [List.filter_eq_nil_iff]
        intro a ha
        simp [hvalid a ha]
      rw [this]
      rfl
    simp only [VerifyController.verifyBatch, hne, hlen, hfil, Bool.not_false,
      Bool.not_true, if_false, if_true, Bool.false_eq_true, Bool.true_eq_false]
    rw [List.filter_congr hWt, List.filter_congr hWn, List.length_map]
  · intro h
    unfold VerifyController.batchItem
    cases lookup h <;> rfl
  · intro h e hl
    unfold VerifyController.batchItem
    rw [hl]
    exact ⟨rfl, rfl⟩

theorem verifyBatch_per_item_witness :
    VerifyController.verifyBatch
      (some
        ["aaaaaaaaaaaaaaaaaaaaaaaaaaaaaaaaaaaaaaaaaaaaaaaaaaaaaaaaaaaaaaaa",
         "bbbbbbbbbbbbbbbbbbbbbbbbbbbbbbbbbbbbbbbbbbbbbbbbbbbbbbbbbbbbbbbb"])
      (fun h =>
        if h = "aaaaaaaaaaaaaaaaaaaaaaaaaaaaaaaaaaaaaaaaaaaaaaaaaaaaaaaaaaaaaaaa"
        then Except.ok ⟨true, none, "cache"⟩ else Except.error "boom") =
      (BatchResp.ok
        ((["aaaaaaaaaaaaaaaaaaaaaaaaaaaaaaaaaaaaaaaaaaaaaaaaaaaaaaaaaaaaaaaa",
           "bbbbbbbbbbbbbbbbbbbbbbbbbbbbbbbbbbbbbbbbbbbbbbbbbbbbbbbbbbbbbbbb"]).map
          (VerifyController.batchItem (fun h =>
            if h =
              "aaaaaaaaaaaaaaaaaaaaaaaaaaaaaaaaaaaaaaaaaaaaaaaaaaaaaaaaaaaaaaaa"
            then Except.ok ⟨true, none, "cache"⟩ else Except.error "boom")))
        { total := 2, verified := 1, failed := 1, notFound := 0 },
        ["aaaaaaaaaaaaaaaaaaaaaaaaaaaaaaaaaaaaaaaaaaaaaaaaaaaaaaaaaaaaaaaa",
         "bbbbbbbbbbbbbbbbbbbbbbbbbbbbbbbbbbbbbbbbbbbbbbbbbbbbbbbbbbbbbbbb"]) := by
  have h := verifyBatch_per_item
    ["aaaaaaaaaaaaaaaaaaaaaaaaaaaaaaaaaaaaaaaaaaaaaaaaaaaaaaaaaaaaaaaa",
     "bbbbbbbbbbbbbbbbbbbbbbbbbbbbbbbbbbbbbbbbbbbbbbbbbbbbbbbbbbbbbbbb"]
    (fun h =>
      if h = "aaaaaaaaaaaaaaaaaaaaaaaaaaaaaaaaaaaaaaaaaaaaaaaaaaaaaaaaaaaaaaaa"
      then Except.ok ⟨true, none, "cache"⟩ else Except.error "boom")
    (by decide) (by decide) (by decide)
    (by
      intro h e hl
      by_cases hh :
          h = "aaaaaaaaaaaaaaaaaaaaaaaaaaaaaaaaaaaaaaaaaaaaaaaaaaaaaaaaaaaaaaaa"
      · simp [hh] at hl
      · simp [hh] at hl
        intro he
        exact absurd (hl.trans he) (by decide))
  rw [h.1]
  norm_num
  decide

/-- C9 counterexample: the claim says that in production
`validateWebhookUrl` returns false for every URL with a private or
loopback hostname; but `WebhookService.validateWebhookUrl` checks only
the protocol, so an HTTPS URL pointing at `localhost` is accepted. -/
theorem validateWebhookUrl_private_host_counterexample :
    WebhookService.validateWebhookUrl "production"
      (some ⟨"https:", "localhost"⟩) = true := by
  rfl

/-- C9 (amended): in production, `WebhookService.validateWebhookUrl`
returns false for every URL whose protocol is not HTTPS and for every
unparseable URL, but it performs no hostname check: it returns true for
every HTTPS URL, including those whose hostname is a private or
loopback address, so such targets are not rejected before webhook
delivery. -/
theorem validateWebhookUrl_amended (env : String) (henv : env = "production") :
    (∀ u : ParsedUrl, u.protocol ≠ "https:" →
      WebhookService.validateWebhookUrl env (some u) = false) ∧
    WebhookService.validateWebhookUrl env none = false ∧
    (∀ u : ParsedUrl, u.protocol = "https:" →
      WebhookService.validateWebhookUrl env (some u) = true) := by
  subst henv
  refine ⟨?_, rfl, ?_⟩
  · intro u hp
    simp [WebhookService.validateWebhookUrl, hp]
  · intro u hp
    simp [WebhookService.validateWebhookUrl, hp]

theorem validateWebhookUrl_amended_witness :
    WebhookService.validateWebhookUrl "production"
      (some ⟨"http:", "example.com"⟩) = false ∧
    WebhookService.validateWebhookUrl "production"
      (some ⟨"https:", "192.168.1.7"⟩) = true :=
  ⟨(validateWebhookUrl_amended "production" rfl).1 ⟨"http:", "example.com"⟩
    (by decide),
   (validateWebhookUrl_amended "production" rfl).2.2 ⟨"https:", "192.168.1.7"⟩
    rfl⟩
